import Mathlib

/-
Shallow embedding of `src/mkdocs_extra_sass_mathshim/plugin.py`.

The plugin transforms SCSS text with a sequence of `re.sub` calls and an
`svg-load(...)` inliner, backed by a fetch-or-read-from-cache routine
keyed by the SHA-256 of the URL.  Python strings are modelled as
`List Char` (with `String` wrappers); `re.sub` is modelled by a
leftmost, non-overlapping scanner `subst` driven by one deterministic
matcher per pattern.  Each matcher is the deterministic resolution of
the corresponding Python regular expression (lazy and greedy
quantifiers resolved by hand; the resolutions were cross-checked
against CPython `re` on the edge cases).  Character classes are the
ASCII fragment of Python's `\s` and of `str.strip`, which agree on the
ASCII stylesheets the plugin processes.
-/

/-- Single-quote character (code 39), used by the quote classes of the
`svg-load` and `color.channel` patterns. -/
def sqc : Char := Char.ofNat 39

/-- Newline character, excluded by an un-DOTALLed `.` in Python regexes. -/
def nlc : Char := Char.ofNat 10

/-- Carriage-return character, translated by universal-newline reads. -/
def crc : Char := Char.ofNat 13

/-- ASCII whitespace, the alphabet fragment of Python's regex `\s`
(space, tab, newline, carriage return, form feed, vertical tab). -/
def isWS (c : Char) : Bool :=
  c = Char.ofNat 32 || c = Char.ofNat 9 || c = nlc || c = Char.ofNat 13 ||
  c = Char.ofNat 12 || c = Char.ofNat 11

/-- The regex character class `["\']` of the `svg-load` pattern. -/
def isQuote (c : Char) : Bool := c = '"' || c = sqc

/-- Match a literal: `dropLit pat l` returns the rest of `l` after the
literal `pat`, or `none` when `l` does not start with `pat`. -/
def dropLit : List Char → List Char → Option (List Char)
  | [], l => some l
  | _ :: _, [] => none
  | p :: ps, c :: cs => if c = p then dropLit ps cs else none

/-- Case-insensitive literal match (Python `re.IGNORECASE` on ASCII). -/
def ciDropLit : List Char → List Char → Option (List Char)
  | [], l => some l
  | _ :: _, [] => none
  | p :: ps, c :: cs => if c.toLower = p.toLower then ciDropLit ps cs else none

/-- Maximal whitespace prefix and the rest: the greedy `\s*`. -/
def spanWS : List Char → List Char × List Char
  | [] => ([], [])
  | c :: cs => if isWS c then ((c :: (spanWS cs).1), (spanWS cs).2) else ([], c :: cs)

/-- Split at the first occurrence of `t`: `some (before, after)`, the
`t` itself excluded, or `none` when `t` does not occur. -/
def splitFirst (t : Char) : List Char → Option (List Char × List Char)
  | [] => none
  | c :: cs =>
    if c = t then some ([], cs)
    else
      match splitFirst t cs with
      | some (p, r) => some (c :: p, r)
      | none => none

/-- Remove trailing whitespace. -/
def dropEndWS : List Char → List Char
  | [] => []
  | c :: cs =>
    if dropEndWS cs = [] && isWS c then [] else c :: dropEndWS cs

/-- Python `str.strip()` on ASCII: leading and trailing whitespace removed. -/
def stripWS (l : List Char) : List Char := dropEndWS (l.dropWhile isWS)

/-- String-level `str.strip()`. -/
def pstrip (s : String) : String := String.mk (stripWS s.data)

/-- A matcher returns, when its pattern matches at the very start of the
input, the replacement text and the number of consumed characters. -/
abbrev Matcher := List Char → Option (List Char × Nat)

/-- One pass of Python `re.sub`: scan left to right, replace the
leftmost match, continue after it (the replacement is not rescanned).
Structured with explicit fuel (one unit per scanned position) so that
every recursion is structural; `subst` supplies enough fuel. -/
def substF (m : Matcher) : Nat → List Char → List Char
  | 0, l => l
  | _ + 1, [] => []
  | f + 1, c :: cs =>
    match m (c :: cs) with
    | some (rep, n + 1) => rep ++ substF m f (cs.drop n)
    | _ => c :: substF m f cs

/-- Python `re.sub pattern repl text` for the matchers of this file
(none of which can match the empty string). -/
def subst (m : Matcher) (l : List Char) : List Char := substF m l.length l

/-- The group text of a lazily matched `\s*([^X]+?)\s*` region `p`
(the text between two delimiters): the region stripped of surrounding
whitespace, except that an all-whitespace region backtracks to its
last single whitespace character.  Cross-checked against CPython. -/
def stripGroup (p : List Char) : List Char :=
  if stripWS p = [] then [p.getLastD (Char.ofNat 32)] else stripWS p

/-- Matcher of `re.sub(r"math\.round\(", "round(", _)` in `save_to`. -/
def mathRoundMatch (l : List Char) : Option (List Char × Nat) :=
  match dropLit (("math.round(").data) l with
  | none => none
  | some _ => some ((("round(").data), 11)

/-- Matcher of
`re.sub(r"math\.div\(\s*([^,]+?)\s*,\s*([^)]+?)\s*\)", r"(\1 / \2)", _)`:
after the literal `math.div(`, the first comma ends group 1 and the
first closing parenthesis after that comma ends group 2; both groups
must be non-empty before whitespace resolution. -/
def mathDivMatch (l : List Char) : Option (List Char × Nat) :=
  match dropLit (("math.div(").data) l with
  | none => none
  | some r1 =>
    match splitFirst ',' r1 with
    | none => none
    | some (p, r2) =>
      if p = [] then none
      else
        match splitFirst ')' r2 with
        | none => none
        | some (p2, _) =>
          if p2 = [] then none
          else
            some (('(' :: stripGroup p) ++ (' ' :: '/' :: ' ' :: stripGroup p2) ++ [')'],
                  9 + p.length + 1 + p2.length + 1)

/-- Matcher of `re.sub(r"math\.unit\(\s*([^)]+?)\s*\)", r"unit(\1)", _)`. -/
def mathUnitMatch (l : List Char) : Option (List Char × Nat) :=
  match dropLit (("math.unit(").data) l with
  | none => none
  | some r1 =>
    match splitFirst ')' r1 with
    | none => none
    | some (p, _) =>
      if p = [] then none
      else some ((("unit(").data) ++ stripGroup p ++ [')'], 10 + p.length + 1)

/-- The `math.round` rewrite of `save_to` (plugin.py line 236). -/
def mathRoundSub (s : String) : String := String.mk (subst mathRoundMatch s.data)

/-- The `math.div` rewrite of `save_to` (plugin.py lines 237-239). -/
def mathDivSub (s : String) : String := String.mk (subst mathDivMatch s.data)

/-- The `math.unit` rewrite of `save_to` (plugin.py line 240). -/
def mathUnitSub (s : String) : String := String.mk (subst mathUnitMatch s.data)

/-- Viability of the continuation after a candidate separator comma in
the `color.channel` patterns: the rest of the `)`-free region must be
`\s*`, a quote, the channel name (case-insensitively), a quote, and
then only characters an un-DOTALLed `.*?` can cross (no newline). -/
def ccViable (name : List Char) (a : List Char) : Bool :=
  match (spanWS a).2 with
  | [] => false
  | q :: a2 =>
    if isQuote q then
      match ciDropLit name a2 with
      | some (q2 :: g) => isQuote q2 && g.all (fun c => c != nlc)
      | _ => false
    else false

/-- Latest viable separator comma of the greedy group `([^\)]+),` of the
`color.channel` patterns: scanning the `)`-free region, the backtracking
greedy group settles on the last comma whose continuation is viable.
Returns the group text and the continuation. -/
def ccScan (name : List Char) : List Char → Option (List Char × List Char)
  | [] => none
  | c :: cs =>
    match ccScan name cs with
    | some (g, a) => some (c :: g, a)
    | none => if c = ',' && ccViable name cs then some ([], cs) else none

/-- Matcher of
`re.sub(r"color\.channel\s*\(\s*([^\)]+),\s*['\"]NAME['\"].*?\)", r"REP(\1)", _, flags=re.IGNORECASE)`
with `NAME` the channel name and `repHead` the literal `REP(`.
The whole match ends at the first `)` after `color.channel(`; the group
is delimited by the last viable comma before it.  An all-whitespace
group backtracks one character out of the preceding `\s*`. -/
def colorChannelMatch (name repHead : List Char) (l : List Char) :
    Option (List Char × Nat) :=
  match ciDropLit (("color.channel").data) l with
  | none => none
  | some r1 =>
    let s1 := spanWS r1
    match s1.2 with
    | '(' :: r2 =>
      let s2 := spanWS r2
      match splitFirst ')' s2.2 with
      | none => none
      | some (reg, _) =>
        let consumed := 13 + s1.1.length + 1 + s2.1.length + reg.length + 1
        match ccScan name reg with
        | none => none
        | some (g, _) =>
          if g = [] then
            if s2.1 = [] then none
            else some (repHead ++ [s2.1.getLastD (Char.ofNat 32)] ++ [')'], consumed)
          else some (repHead ++ g ++ [')'], consumed)
    | _ => none

/-- The `color.channel(_, 'hue')` rewrite of `save_to` (lines 243-248). -/
def hueSub (s : String) : String :=
  String.mk (subst (colorChannelMatch (("hue").data) (("hue(").data)) s.data)

/-- The `color.channel(_, 'saturation')` rewrite of `save_to` (lines 249-254). -/
def satSub (s : String) : String :=
  String.mk (subst (colorChannelMatch (("saturation").data) (("saturation(").data)) s.data)

/-- The `color.channel(_, 'lightness')` rewrite of `save_to` (lines 255-260). -/
def lightSub (s : String) : String :=
  String.mk (subst (colorChannelMatch (("lightness").data) (("lightness(").data)) s.data)

/-- `os.path.basename` on POSIX: the part after the last `/`. -/
def basenameL (l : List Char) : List Char :=
  (l.reverse.takeWhile (fun c => c != '/')).reverse

/-- Substring test, modelling Python's `needle in haystack`. -/
def hasSub (n : List Char) : List Char → Bool
  | [] => n.isEmpty
  | c :: cs => (dropLit n (c :: cs)).isSome || hasSub n cs

/-- Prefix test, modelling Python's `str.startswith`. -/
def startsWithL (p l : List Char) : Bool := (dropLit p l).isSome

/-- The inlined-data replacement
`f"/* {full_text} => inlined */ url('data:image/svg+xml;base64,{fetched}')"`
of `_inline_svg_loads`. -/
def inlinedRep (fullText : List Char) (fetched : String) : List Char :=
  (("/* ").data) ++ fullText ++ ((" => inlined */ url(").data) ++ [sqc] ++
    (("data:image/svg+xml;base64,").data) ++ fetched.data ++ [sqc, ')']

/-- The `replacer` closure of `_inline_svg_loads` (plugin.py lines
334-367): `fullText` is `match.group(0)`, `g` is `match.group(2)`, and
`fetch` stands for `self._fetch_and_cache` (whose returned string is
all the replacer consumes). -/
def svgReplacer (mdi oct : String) (fetch : String → String)
    (fullText g : List Char) : List Char :=
  let svgPath := String.mk (stripWS g)
  if startsWithL (("http://").data) svgPath.data ||
      startsWithL (("https://").data) svgPath.data then
    let fetched := fetch svgPath
    if fetched = "" then (("/* ").data) ++ fullText ++ ((" => FAILED to fetch */").data)
    else inlinedRep fullText fetched
  else if mdi != "" && startsWithL (("@mdi/svg/svg/").data) svgPath.data then
    let remote := mdi ++ ("/") ++ String.mk (basenameL svgPath.data)
    let fetched := fetch remote
    if fetched = "" then
      (("/* ").data) ++ fullText ++ ((" => MDI fetch failed: ").data) ++
        remote.data ++ ((" */").data)
    else inlinedRep fullText fetched
  else if oct != "" && hasSub (("octicons").data) svgPath.data then
    let remote := oct ++ ("/") ++ String.mk (basenameL svgPath.data)
    let fetched := fetch remote
    if fetched = "" then
      (("/* ").data) ++ fullText ++ ((" => Octicons fetch failed: ").data) ++
        remote.data ++ ((" */").data)
    else inlinedRep fullText fetched
  else
    (("/* ").data) ++ fullText ++ ((" => no known base URL or not an http link */").data)

/-- Matcher of the pattern `svg-load\s*\(\s*(["\'])([^"\']+)\1\s*\)` of
`_inline_svg_loads`: the closing quote must equal the opening one, the
quoted text is non-empty and quote-free.  The replacement is computed by
`svgReplacer` from the whole matched text and the quoted group. -/
def svgLoadMatch (mdi oct : String) (fetch : String → String) (l : List Char) :
    Option (List Char × Nat) :=
  match dropLit (("svg-load").data) l with
  | none => none
  | some r1 =>
    let s1 := spanWS r1
    match s1.2 with
    | '(' :: r2 =>
      let s2 := spanWS r2
      match s2.2 with
      | q :: r3 =>
        if isQuote q then
          let g := r3.takeWhile (fun c => !(isQuote c))
          match r3.dropWhile (fun c => !(isQuote c)) with
          | q2 :: r4 =>
            if q2 = q && !(g.isEmpty) then
              let s3 := spanWS r4
              match s3.2 with
              | ')' :: _ =>
                let consumed := 8 + s1.1.length + 1 + s2.1.length + 1 + g.length +
                  1 + s3.1.length + 1
                some (svgReplacer mdi oct fetch (l.take consumed) g, consumed)
              | _ => none
            else none
          | [] => none
        else none
      | [] => none
    | _ => none

/-- `_AvailableSassEntry._inline_svg_loads` (plugin.py lines 326-369),
with `fetch` standing for `self._fetch_and_cache` and `mdi`, `oct` for
the configured base URLs. -/
def inlineSvgLoads (mdi oct : String) (fetch : String → String) (s : String) : String :=
  String.mk (subst (svgLoadMatch mdi oct fetch) s.data)

/-- UTF-8 encoding of one Unicode scalar value (Python `str.encode("utf-8")`). -/
def utf8Char (c : Char) : List Nat :=
  let n := c.toNat
  if n < 128 then [n]
  else if n < 2048 then [192 + n / 64, 128 + n % 64]
  else if n < 65536 then [224 + n / 4096, 128 + (n / 64) % 64, 128 + n % 64]
  else [240 + n / 262144, 128 + (n / 4096) % 64, 128 + (n / 64) % 64, 128 + n % 64]

/-- UTF-8 encoding of a text, as a list of byte values. -/
def utf8Bytes (l : List Char) : List Nat := l.foldr (fun c acc => utf8Char c ++ acc) []

/-- 32-bit right rotation on `Nat` (values kept below `2 ^ 32`). -/
def rotr32 (n x : Nat) : Nat := ((x >>> n) ||| (x <<< (32 - n))) % 4294967296

/-- SHA-256 round constants. -/
def shaK : List Nat :=
  [1116352408, 1899447441, 3049323471, 3921009573, 961987163, 1508970993,
   2453635748, 2870763221, 3624381080, 310598401, 607225278, 1426881987,
   1925078388, 2162078206, 2614888103, 3248222580, 3835390401, 4022224774,
   264347078, 604807628, 770255983, 1249150122, 1555081692, 1996064986,
   2554220882, 2821834349, 2952996808, 3210313671, 3336571891, 3584528711,
   113926993, 338241895, 666307205, 773529912, 1294757372, 1396182291,
   1695183700, 1986661051, 2177026350, 2456956037, 2730485921, 2820302411,
   3259730800, 3345764771, 3516065817, 3600352804, 4094571909, 275423344,
   430227734, 506948616, 659060556, 883997877, 958139571, 1322822218,
   1537002063, 1747873779, 1955562222, 2024104815, 2227730452, 2361852424,
   2428436474, 2756734187, 3204031479, 3329325298]

/-- SHA-256 initial hash state. -/
def shaH0 : List Nat :=
  [1779033703, 3144134277, 1013904242, 2773480762, 1359893119, 2600822924,
   528734635, 1541459225]

/-- Big-endian byte decomposition (`k` bytes of `n`). -/
def toBytesBE : Nat → Nat → List Nat
  | 0, _ => []
  | k + 1, n => toBytesBE k (n / 256) ++ [n % 256]

/-- SHA-256 padding: `0x80`, zeros, and the 64-bit big-endian bit length,
to a multiple of 64 bytes.  The zero count solves
`(len + 1 + padZeros) % 64 = 56` without truncated subtraction
(`119 = 55 + 64` keeps the minuend above every residue). -/
def sha256pad (msg : List Nat) : List Nat :=
  let padZeros := (119 - msg.length % 64) % 64
  msg ++ [128] ++ List.replicate padZeros 0 ++ toBytesBE 8 (8 * msg.length)

/-- Big-endian 32-bit words from bytes. -/
def bytesToWords : List Nat → List Nat
  | b0 :: b1 :: b2 :: b3 :: rest =>
    (((b0 * 256 + b1) * 256 + b2) * 256 + b3) :: bytesToWords rest
  | _ => []

/-- SHA-256 small sigma 0. -/
def ssig0 (x : Nat) : Nat := (rotr32 7 x) ^^^ (rotr32 18 x) ^^^ (x >>> 3)

/-- SHA-256 small sigma 1. -/
def ssig1 (x : Nat) : Nat := (rotr32 17 x) ^^^ (rotr32 19 x) ^^^ (x >>> 10)

/-- Message-schedule extension: 48 steps growing the 16 block words to 64. -/
def schedExt : Nat → List Nat → List Nat
  | 0, w => w
  | f + 1, w =>
    let n := w.length
    let wt := (ssig1 (w.getD (n - 2) 0) + w.getD (n - 7) 0 +
      ssig0 (w.getD (n - 15) 0) + w.getD (n - 16) 0) % 4294967296
    schedExt f (w ++ [wt])

/-- One SHA-256 compression round; the state is `[a, b, c, d, e, f, g, h]`. -/
def shaRound (k w : Nat) (st : List Nat) : List Nat :=
  let a := st.getD 0 0
  let b := st.getD 1 0
  let c := st.getD 2 0
  let d := st.getD 3 0
  let e := st.getD 4 0
  let fv := st.getD 5 0
  let g := st.getD 6 0
  let h := st.getD 7 0
  let s1 := (rotr32 6 e) ^^^ (rotr32 11 e) ^^^ (rotr32 25 e)
  let ch := (e &&& fv) ^^^ ((e ^^^ 4294967295) &&& g)
  let t1 := (h + s1 + ch + k + w) % 4294967296
  let s0 := (rotr32 2 a) ^^^ (rotr32 13 a) ^^^ (rotr32 22 a)
  let maj := (a &&& b) ^^^ (a &&& c) ^^^ (b &&& c)
  let t2 := (s0 + maj) % 4294967296
  [(t1 + t2) % 4294967296, a, b, c, (d + t1) % 4294967296, e, fv, g]

/-- SHA-256 compression of one 16-word block into the hash state. -/
def shaCompress (hst : List Nat) (block : List Nat) : List Nat :=
  let w := schedExt 48 block
  let st := (shaK.zip w).foldl (fun s kw => shaRound kw.1 kw.2 s) hst
  (hst.zip st).map (fun p => (p.1 + p.2) % 4294967296)

/-- Fold the compression over all blocks (`fuel` = number of blocks). -/
def shaBlocks : Nat → List Nat → List Nat → List Nat
  | 0, _, hst => hst
  | f + 1, ws, hst => shaBlocks f (ws.drop 16) (shaCompress hst (ws.take 16))

/-- Lower-case hexadecimal digit. -/
def hexDigit (n : Nat) : Char :=
  if n < 10 then Char.ofNat (48 + n) else Char.ofNat (87 + n)

/-- Eight hex digits of a 32-bit word, most significant first. -/
def wordHex (w : Nat) : List Char :=
  [hexDigit ((w >>> 28) % 16), hexDigit ((w >>> 24) % 16), hexDigit ((w >>> 20) % 16),
   hexDigit ((w >>> 16) % 16), hexDigit ((w >>> 12) % 16), hexDigit ((w >>> 8) % 16),
   hexDigit ((w >>> 4) % 16), hexDigit (w % 16)]

/-- `hashlib.sha256(bytes).hexdigest()`. -/
def sha256hex (msg : List Nat) : String :=
  let ws := bytesToWords (sha256pad msg)
  let hst := shaBlocks (ws.length / 16) ws shaH0
  String.mk (hst.foldr (fun w acc => wordHex w ++ acc) [])

/-- One base64 character of the standard alphabet. -/
def b64char (n : Nat) : Char :=
  if n < 26 then Char.ofNat (65 + n)
  else if n < 52 then Char.ofNat (97 + (n - 26))
  else if n < 62 then Char.ofNat (48 + (n - 52))
  else if n = 62 then '+' else '/'

/-- Standard base64 groups with `=` padding (`base64.b64encode`). -/
def b64groups : List Nat → List Char
  | b0 :: b1 :: b2 :: rest =>
    let n := (b0 * 256 + b1) * 256 + b2
    b64char (n / 262144) :: b64char ((n / 4096) % 64) :: b64char ((n / 64) % 64) ::
      b64char (n % 64) :: b64groups rest
  | [b0, b1] =>
    let n := b0 * 1024 + b1 * 4
    [b64char (n / 4096), b64char ((n / 64) % 64), b64char (n % 64), '=']
  | [b0] =>
    let n := b0 * 16
    [b64char (n / 64), b64char (n % 64), '=', '=']
  | [] => []

/-- `base64.b64encode(bytes).decode("utf-8")`. -/
def b64encode (bs : List Nat) : String := String.mk (b64groups bs)

/-- `base64.b64encode(s.encode("utf-8")).decode("utf-8")`, the value
`_fetch_and_cache` returns for a body or cached text `s`. -/
def b64utf8 (s : String) : String := b64encode (utf8Bytes s.data)

/-- The application name passed to `platformdirs.user_cache_dir`. -/
def cacheAppName : String := "mkdxs-mathshim"

/-- The cache file path of `_fetch_and_cache` (plugin.py lines 376-381):
`Path(user_cache_dir("mkdxs-mathshim")) / f"{sha256(url.encode()).hexdigest()}.svg"`.
`ucd` stands for the value of `user_cache_dir cacheAppName`, which is
environment-dependent but fixed within a run. -/
def cachePath (ucd : String) (url : String) : String :=
  ucd ++ ("/") ++ sha256hex (utf8Bytes url.data) ++ (".svg")

/-- The effectful environment of `_fetch_and_cache`: `net url` is the
body text when `requests.get(url)` succeeds and `none` when downloading
raises; `canWrite path` tells whether `Path.write_text` on `path`
succeeds. -/
structure FetchEnv where
  net : String → Option String
  canWrite : String → Bool

/-- State of the on-disk cache directory: for a path, `none` means no
file, `some none` a file whose read raises, and `some (some s)` a file
that reads as `s`. -/
abbrev CacheMap := String → Option (Option String)

/-- Result of a `_fetch_and_cache` call: the returned base64 string, the
cache directory afterwards, and whether a network request was made. -/
structure FetchOut where
  result : String
  cache : CacheMap
  fetched : Bool

/-- Universal-newline translation of Python text-mode reads
(`io.open(..., "r", encoding="utf-8")` with the default `newline=None`):
`\r\n` and a lone `\r` both read back as `\n`. -/
def univNL : List Char → List Char
  | [] => []
  | c :: cs =>
    if c = crc then
      match cs with
      | d :: cs2 => if d = nlc then nlc :: univNL cs2 else nlc :: univNL (d :: cs2)
      | [] => [nlc]
    else c :: univNL cs

/-- The download-then-cache tail of `_fetch_and_cache` (plugin.py lines
397-414): on a download error return `""`; otherwise write the cache
(ignoring write failures) and return the base64 of the body.
`Path.write_text` on POSIX stores the body text verbatim
(`os.linesep = "\n"`); the newline translation happens on the later
text-mode read, in `fetchAndCache`. -/
def fetchFresh (env : FetchEnv) (cache : CacheMap) (url cf : String) : FetchOut :=
  match env.net url with
  | none => ⟨"", cache, true⟩
  | some body =>
    let cache2 : CacheMap :=
      if env.canWrite cf then fun k => if k = cf then some (some body) else cache k
      else cache
    ⟨b64utf8 body, cache2, true⟩

/-- `_AvailableSassEntry._fetch_and_cache` (plugin.py lines 371-414):
read the cache file when it is readable; delete it and re-download when
reading raises; download when there is no cache file.  The cache read
uses `io.open(cache_file, "r", encoding="utf-8")`, a text-mode read
under universal newlines, so the stored text comes back through
`univNL`. -/
def fetchAndCache (ucd : String) (env : FetchEnv) (cache : CacheMap)
    (url : String) : FetchOut :=
  let cf := cachePath ucd url
  match cache cf with
  | some (some s) => ⟨b64utf8 (String.mk (univNL s.data)), cache, false⟩
  | some none =>
    fetchFresh env (fun k => if k = cf then none else cache k) url cf
  | none => fetchFresh env cache url cf

/-- Result of `_SassEntry.search_entry_point`: either no usable entry or
an available entry with its directory and file name. -/
inductive SassEntry where
  | noSass : SassEntry
  | avail : String → String → SassEntry
deriving DecidableEq

/-- `_SassEntry._styles_dir`. -/
def stylesDir : String := "extra_sass"

/-- `_SassEntry._style_filenames`, in source order. -/
def styleFilenames : List String :=
  [("style.css.sass"), ("style.sass"), ("style.css.scss"), ("style.scss")]

/-- `os.path.join` for a relative second component on POSIX. -/
def pathJoin (d f : String) : String := d ++ ("/") ++ f

/-- `_SassEntry.search_entry_point` (plugin.py lines 146-157), over an
abstract filesystem given by `isdir` and `isfile`. -/
def searchEntryPoint (isdir isfile : String → Bool) : SassEntry :=
  if isdir stylesDir then
    match styleFilenames.find? (fun f => isfile (pathJoin stylesDir f)) with
    | some f => SassEntry.avail stylesDir f
    | none => SassEntry.noSass
  else SassEntry.noSass

/-- `is_available`: `False` on the `_SassEntry` base (returned as
`_NoSassEntry`), `True` on `_AvailableSassEntry`. -/
def isAvailable : SassEntry → Bool
  | SassEntry.noSass => false
  | SassEntry.avail _ _ => true

/-- `relative_path` in the state `search_entry_point` returns it:
`""` for `_NoSassEntry`, and `self._relative_path or ""` with
`_relative_path = None` (hence `""`) for a fresh `_AvailableSassEntry`. -/
def relativePath : SassEntry → String
  | SassEntry.noSass => ""
  | SassEntry.avail _ _ => ""

/-- An `svg-load(<q>text<q>)` occurrence, `q` the quote character. -/
def svgOcc (q : Char) (u : List Char) : List Char :=
  (("svg-load").data) ++ '(' :: q :: (u ++ q :: [')'])

/-- A `math.div(<w1><a><w2>,<w3><b><w4>)` occurrence. -/
def divOcc (w1 a w2 w3 b w4 : List Char) : List Char :=
  (("math.div(").data) ++ w1 ++ a ++ w2 ++ [','] ++ w3 ++ b ++ w4 ++ [')']

/-- A `math.unit(<w1><x><w2>)` occurrence. -/
def unitOcc (w1 x w2 : List Char) : List Char :=
  (("math.unit(").data) ++ w1 ++ x ++ w2 ++ [')']

/-- A `color.channel(<e>,<w><q1><cn><q2>)` occurrence. -/
def chanOcc (e w : List Char) (q1 : Char) (cn : List Char) (q2 : Char) : List Char :=
  (("color.channel").data) ++ '(' :: (e ++ [','] ++ w ++ q1 :: (cn ++ [q2, ')']))

/-- No pattern match begins at any of the first `k` positions of `l`. -/
abbrev NoMatchBelow (m : Matcher) (l : List Char) (k : Nat) : Prop :=
  ∀ i, i < k → m (l.drop i) = none

/-- A fetch function that knows only the URL with a trailing blank. -/
def cexFetch : String → String :=
  fun u => if u = ("http://x ") then ("QQ==") else ""

theorem substF_congr (m : Matcher) :
    ∀ f g l, l.length ≤ f → l.length ≤ g → substF m f l = substF m g l := by
  intro f
  induction f with
  | zero =>
    intro g l hf _
    have : l = [] := List.eq_nil_of_length_eq_zero (Nat.le_zero.mp hf)
    cases this
    cases g <;> simp [substF]
  | succ f ih =>
    intro g l hf hg
    cases l with
    | nil => cases g <;> simp [substF]
    | cons c cs =>
      cases g with
      | zero => simp at hg
      | succ g' =>
        simp only [substF]
        cases hm : m (c :: cs) with
        | none =>
          have := ih g' cs (by simpa using hf) (by simpa using hg)
          simp [this]
        | some pr =>
          obtain ⟨rep, n⟩ := pr
          cases n with
          | zero =>
            have := ih g' cs (by simpa using hf) (by simpa using hg)
            simp [this]
          | succ n =>
            have hd : (cs.drop n).length ≤ f := by
              have := List.length_drop n cs
              simp at hf
              omega
            have hd' : (cs.drop n).length ≤ g' := by
              have := List.length_drop n cs
              simp at hg
              omega
            have := ih g' (cs.drop n) hd hd'
            simp [this]

theorem subst_eat (m : Matcher) (occ post rep : List Char) (hocc : occ ≠ [])
    (hm : m (occ ++ post) = some (rep, occ.length)) :
    subst m (occ ++ post) = rep ++ subst m post := by
  cases occ with
  | nil => exact absurd rfl hocc
  | cons c os =>
    have hlen : ((c :: os) ++ post).length = (os ++ post).length + 1 := by simp
    unfold subst
    rw [hlen]
    have hshape : (c :: os) ++ post = c :: (os ++ post) := rfl
    rw [hshape]
    have hm' : m (c :: (os ++ post)) = some (rep, os.length + 1) := by
      simpa using hm
    simp only [substF, hm']
    have hdrop : (os ++ post).drop os.length = post := List.drop_left os post
    rw [hdrop]
    have := substF_congr m (os ++ post).length post.length post (by simp) (le_refl _)
    rw [this]

theorem subst_skip (m : Matcher) :
    ∀ pre l, (∀ i, i < pre.length → m ((pre ++ l).drop i) = none) →
      subst m (pre ++ l) = pre ++ subst m l := by
  intro pre
  induction pre with
  | nil => intro l _; simp
  | cons c ps ih =>
    intro l h
    have h0 : m (c :: (ps ++ l)) = none := by
      have := h 0 (by simp)
      simpa using this
    unfold subst
    have hshape : (c :: ps) ++ l = c :: (ps ++ l) := rfl
    rw [hshape]
    have hlen : (c :: (ps ++ l)).length = (ps ++ l).length + 1 := by simp
    rw [hlen]
    simp only [substF, h0]
    have hrest : ∀ i, i < ps.length → m ((ps ++ l).drop i) = none := by
      intro i hi
      have := h (i + 1) (by simp; omega)
      simpa using this
    have := ih l hrest
    unfold subst at this
    rw [this]
    simp

theorem dropLit_self : ∀ (p r : List Char), dropLit p (p ++ r) = some r := by
  intro p
  induction p with
  | nil => intro r; rfl
  | cons c ps ih => intro r; simp [dropLit, ih]

theorem ciDropLit_self : ∀ (p r : List Char), ciDropLit p (p ++ r) = some r := by
  intro p
  induction p with
  | nil => intro r; rfl
  | cons c ps ih => intro r; simp [ciDropLit, ih]

theorem ciDropLit_of_map :
    ∀ (name cn r : List Char), cn.map Char.toLower = name →
      (∀ c ∈ name, c.toLower = c) → ciDropLit name (cn ++ r) = some r := by
  intro name
  induction name with
  | nil =>
    intro cn r hmap _
    have : cn = [] := by
      cases cn with
      | nil => rfl
      | cons x xs => simp at hmap
    cases this
    rfl
  | cons d ds ih =>
    intro cn r hmap hlow
    cases cn with
    | nil => simp at hmap
    | cons x xs =>
      simp only [List.map_cons, List.cons.injEq] at hmap
      obtain ⟨hx, hxs⟩ := hmap
      have hd : d.toLower = d := hlow d (by simp)
      have : x.toLower = d.toLower := by rw [hx, hd]
      simp [ciDropLit, this, ih xs r hxs (fun c hc => hlow c (by simp [hc]))]

theorem spanWS_nonws {c : Char} (l : List Char) (h : isWS c = false) :
    spanWS (c :: l) = ([], c :: l) := by
  simp [spanWS, h]

theorem spanWS_ws_append (w rest : List Char) (hw : ∀ c ∈ w, isWS c = true)
    (hrest : spanWS rest = ([], rest)) : spanWS (w ++ rest) = (w, rest) := by
  induction w with
  | nil => simpa using hrest
  | cons c ws ih =>
    have hc : isWS c = true := hw c (by simp)
    have := ih (fun d hd => hw d (by simp [hd]))
    simp [spanWS, hc, this]

theorem splitFirst_append (t : Char) :
    ∀ (p r : List Char), (∀ c ∈ p, c ≠ t) → splitFirst t (p ++ t :: r) = some (p, r) := by
  intro p
  induction p with
  | nil => intro r _; simp [splitFirst]
  | cons c ps ih =>
    intro r h
    have hc : c ≠ t := h c (by simp)
    simp [splitFirst, hc, ih r (fun d hd => h d (by simp [hd]))]

theorem takeWhile_stop (pr : Char → Bool) :
    ∀ (u : List Char) (q : Char) (r : List Char), (∀ c ∈ u, pr c = true) → pr q = false →
      (u ++ q :: r).takeWhile pr = u ∧ (u ++ q :: r).dropWhile pr = q :: r := by
  intro u
  induction u with
  | nil => intro q r _ hq; simp [List.takeWhile, List.dropWhile, hq]
  | cons c us ih =>
    intro q r h hq
    have hc : pr c = true := h c (by simp)
    have := ih q r (fun d hd => h d (by simp [hd])) hq
    simp [List.takeWhile, List.dropWhile, hc, this.1, this.2]

theorem dropWhile_ws_append (w x : List Char) (hw : ∀ c ∈ w, isWS c = true) :
    (w ++ x).dropWhile isWS = x.dropWhile isWS := by
  induction w with
  | nil => simp
  | cons c ws ih =>
    have hc : isWS c = true := hw c (by simp)
    simp [List.dropWhile, hc, ih (fun d hd => hw d (by simp [hd]))]

theorem dropWhile_length_le (pr : Char → Bool) :
    ∀ l : List Char, (l.dropWhile pr).length ≤ l.length := by
  intro l
  induction l with
  | nil => simp
  | cons c cs ih =>
    rw [List.dropWhile_cons]
    cases hc : pr c with
    | true => simp only [if_true, List.length_cons]; omega
    | false => simp

theorem head_nonws (c : Char) (cs : List Char)
    (h : (c :: cs).dropWhile isWS = c :: cs) : isWS c = false := by
  cases hc : isWS c with
  | false => rfl
  | true =>
    rw [List.dropWhile_cons, hc] at h
    simp only [if_true] at h
    have h1 := dropWhile_length_le isWS cs
    have h2 : (List.dropWhile isWS cs).length = cs.length + 1 := by rw [h]; simp
    omega

theorem dropEndWS_ws (w : List Char) (hw : ∀ c ∈ w, isWS c = true) :
    dropEndWS w = [] := by
  induction w with
  | nil => rfl
  | cons c ws ih =>
    have hc : isWS c = true := hw c (by simp)
    simp [dropEndWS, hc, ih (fun d hd => hw d (by simp [hd]))]

theorem dropEndWS_append_ws (w : List Char) (hw : ∀ c ∈ w, isWS c = true) :
    ∀ x : List Char, dropEndWS (x ++ w) = dropEndWS x := by
  intro x
  induction x with
  | nil => simpa using dropEndWS_ws w hw
  | cons c xs ih => simp [dropEndWS, ih]

theorem stripWS_sandwich (w1 a w2 : List Char)
    (hw1 : ∀ c ∈ w1, isWS c = true) (hw2 : ∀ c ∈ w2, isWS c = true)
    (ha0 : a ≠ []) (ha1 : a.dropWhile isWS = a) (ha2 : dropEndWS a = a) :
    stripWS (w1 ++ a ++ w2) = a := by
  unfold stripWS
  rw [List.append_assoc, dropWhile_ws_append w1 (a ++ w2) hw1]
  cases a with
  | nil => exact absurd rfl ha0
  | cons c cs =>
    have hc : isWS c = false := head_nonws c cs ha1
    rw [List.cons_append, List.dropWhile_cons, hc]
    simp only [Bool.false_eq_true, if_false]
    have hshape : c :: (cs ++ w2) = (c :: cs) ++ w2 := rfl
    rw [hshape, dropEndWS_append_ws w2 hw2 (c :: cs), ha2]

theorem stripGroup_sandwich (w1 a w2 : List Char)
    (hw1 : ∀ c ∈ w1, isWS c = true) (hw2 : ∀ c ∈ w2, isWS c = true)
    (ha0 : a ≠ []) (ha1 : a.dropWhile isWS = a) (ha2 : dropEndWS a = a) :
    stripGroup (w1 ++ a ++ w2) = a := by
  unfold stripGroup
  rw [stripWS_sandwich w1 a w2 hw1 hw2 ha0 ha1 ha2]
  simp [ha0]

theorem quote_cases {c : Char} (h : isQuote c = true) : c = '"' ∨ c = sqc := by
  simp [isQuote] at h
  exact h

theorem ws_ne_comma {c : Char} (h : isWS c = true) : c ≠ ',' := by
  intro he
  rw [he] at h
  exact absurd h (by decide)

theorem ws_ne_rpar {c : Char} (h : isWS c = true) : c ≠ ')' := by
  intro he
  rw [he] at h
  exact absurd h (by decide)

theorem quote_not_ws {c : Char} (h : isQuote c = true) : isWS c = false := by
  rcases quote_cases h with rfl | rfl <;> decide

theorem quote_ne_comma {c : Char} (h : isQuote c = true) : c ≠ ',' := by
  rcases quote_cases h with rfl | rfl <;> decide

theorem quote_ne_rpar {c : Char} (h : isQuote c = true) : c ≠ ')' := by
  rcases quote_cases h with rfl | rfl <;> decide

theorem subst_skip_eat (m : Matcher) (pre occ post rep : List Char)
    (hocc : occ ≠ [])
    (hm : m (occ ++ post) = some (rep, occ.length))
    (hpre : NoMatchBelow m (pre ++ occ ++ post) pre.length) :
    subst m (pre ++ occ ++ post) = pre ++ rep ++ subst m post := by
  rw [List.append_assoc]
  have hpre' : ∀ i, i < pre.length → m ((pre ++ (occ ++ post)).drop i) = none := by
    intro i hi
    have := hpre i hi
    rwa [List.append_assoc] at this
  rw [subst_skip m pre (occ ++ post) hpre', subst_eat m occ post rep hocc hm,
    List.append_assoc]

theorem mathRoundMatch_occ (post : List Char) :
    mathRoundMatch ((("math.round(").data) ++ post) = some ((("round(").data), 11) := by
  unfold mathRoundMatch
  rw [dropLit_self]

theorem mathDivMatch_occ (w1 a w2 w3 b w4 post : List Char)
    (hw1 : ∀ c ∈ w1, isWS c = true) (hw2 : ∀ c ∈ w2, isWS c = true)
    (hw3 : ∀ c ∈ w3, isWS c = true) (hw4 : ∀ c ∈ w4, isWS c = true)
    (ha0 : a ≠ []) (hac : ∀ c ∈ a, c ≠ ',')
    (ha1 : a.dropWhile isWS = a) (ha2 : dropEndWS a = a)
    (hb0 : b ≠ []) (hbp : ∀ c ∈ b, c ≠ ')')
    (hb1 : b.dropWhile isWS = b) (hb2 : dropEndWS b = b) :
    mathDivMatch (divOcc w1 a w2 w3 b w4 ++ post) =
      some (('(' :: a) ++ (' ' :: '/' :: ' ' :: b) ++ [')'],
        (divOcc w1 a w2 w3 b w4).length) := by
  have key : divOcc w1 a w2 w3 b w4 ++ post =
      (("math.div(").data) ++ ((w1 ++ a ++ w2) ++ ',' :: ((w3 ++ b ++ w4) ++ ')' :: post)) := by
    simp [divOcc]
  have hpc : ∀ c ∈ w1 ++ a ++ w2, c ≠ ',' := by
    intro c hc
    simp only [List.mem_append] at hc
    rcases hc with (hc | hc) | hc
    · exact ws_ne_comma (hw1 c hc)
    · exact hac c hc
    · exact ws_ne_comma (hw2 c hc)
  have hp2c : ∀ c ∈ w3 ++ b ++ w4, c ≠ ')' := by
    intro c hc
    simp only [List.mem_append] at hc
    rcases hc with (hc | hc) | hc
    · exact ws_ne_rpar (hw3 c hc)
    · exact hbp c hc
    · exact ws_ne_rpar (hw4 c hc)
  have hsplit1 := splitFirst_append ',' (w1 ++ a ++ w2) ((w3 ++ b ++ w4) ++ ')' :: post) hpc
  have hsplit2 := splitFirst_append ')' (w3 ++ b ++ w4) post hp2c
  have hpne : w1 ++ a ++ w2 ≠ [] := by
    intro h
    have := congrArg List.length h
    simp at this
    exact ha0 this.2.1
  have hp2ne : w3 ++ b ++ w4 ≠ [] := by
    intro h
    have := congrArg List.length h
    simp at this
    exact hb0 this.2.1
  have hg1 := stripGroup_sandwich w1 a w2 hw1 hw2 ha0 ha1 ha2
  have hg2 := stripGroup_sandwich w3 b w4 hw3 hw4 hb0 hb1 hb2
  have hlen : 9 + (w1 ++ a ++ w2).length + 1 + (w3 ++ b ++ w4).length + 1 =
      (divOcc w1 a w2 w3 b w4).length := by
    simp [divOcc]
    omega
  rw [key]
  simp only [mathDivMatch, dropLit_self, hsplit1, hsplit2, hg1, hg2, hpne, hp2ne,
    if_neg hpne, if_neg hp2ne, hlen]
  simp

theorem mathUnitMatch_occ (w1 x w2 post : List Char)
    (hw1 : ∀ c ∈ w1, isWS c = true) (hw2 : ∀ c ∈ w2, isWS c = true)
    (hx0 : x ≠ []) (hxp : ∀ c ∈ x, c ≠ ')')
    (hx1 : x.dropWhile isWS = x) (hx2 : dropEndWS x = x) :
    mathUnitMatch (unitOcc w1 x w2 ++ post) =
      some ((("unit(").data) ++ x ++ [')'], (unitOcc w1 x w2).length) := by
  have key : unitOcc w1 x w2 ++ post =
      (("math.unit(").data) ++ ((w1 ++ x ++ w2) ++ ')' :: post) := by
    simp [unitOcc]
  have hpc : ∀ c ∈ w1 ++ x ++ w2, c ≠ ')' := by
    intro c hc
    simp only [List.mem_append] at hc
    rcases hc with (hc | hc) | hc
    · exact ws_ne_rpar (hw1 c hc)
    · exact hxp c hc
    · exact ws_ne_rpar (hw2 c hc)
  have hsplit := splitFirst_append ')' (w1 ++ x ++ w2) post hpc
  have hpne : w1 ++ x ++ w2 ≠ [] := by
    intro h
    have := congrArg List.length h
    simp at this
    exact hx0 this.2.1
  have hg := stripGroup_sandwich w1 x w2 hw1 hw2 hx0 hx1 hx2
  have hlen : 10 + (w1 ++ x ++ w2).length + 1 = (unitOcc w1 x w2).length := by
    simp [unitOcc]
    omega
  rw [key]
  simp only [mathUnitMatch, dropLit_self, hsplit, hg, if_neg hpne, hlen]

theorem ccScan_none (name : List Char) :
    ∀ a : List Char, (∀ c ∈ a, c ≠ ',') → ccScan name a = none := by
  intro a
  induction a with
  | nil => intro _; rfl
  | cons c cs ih =>
    intro h
    have hc : c ≠ ',' := h c (by simp)
    simp [ccScan, ih (fun d hd => h d (by simp [hd])), hc]

theorem ccScan_sep (name : List Char) (e a : List Char)
    (ha : ∀ c ∈ a, c ≠ ',') (hv : ccViable name a = true) :
    ccScan name (e ++ ',' :: a) = some (e, a) := by
  induction e with
  | nil => simp [ccScan, ccScan_none name a ha, hv]
  | cons c es ih => simp [ccScan, ih]

theorem ccViable_occ (name : List Char) (w : List Char) (q1 q2 : Char) (cn : List Char)
    (hw : ∀ c ∈ w, isWS c = true) (hq1 : isQuote q1 = true) (hq2 : isQuote q2 = true)
    (hmap : cn.map Char.toLower = name) (hlow : ∀ c ∈ name, c.toLower = c) :
    ccViable name (w ++ q1 :: (cn ++ [q2])) = true := by
  have hspan := spanWS_ws_append w (q1 :: (cn ++ [q2])) hw
    (spanWS_nonws _ (quote_not_ws hq1))
  have hci := ciDropLit_of_map name cn [q2] hmap hlow
  unfold ccViable
  rw [hspan]
  simp [hq1, hci, hq2]

theorem colorChannelMatch_occ (name repHead : List Char) (e w : List Char)
    (q1 : Char) (cn : List Char) (q2 : Char) (post : List Char)
    (hq1 : isQuote q1 = true) (hq2 : isQuote q2 = true)
    (hmap : cn.map Char.toLower = name) (hlow : ∀ c ∈ name, c.toLower = c)
    (hw : ∀ c ∈ w, isWS c = true)
    (he0 : e ≠ []) (hep : ∀ c ∈ e, c ≠ ')') (he1 : e.dropWhile isWS = e)
    (hcnp : ∀ c ∈ cn, c ≠ ')') (hcnc : ∀ c ∈ cn, c ≠ ',') :
    colorChannelMatch name repHead (chanOcc e w q1 cn q2 ++ post) =
      some (repHead ++ e ++ [')'], (chanOcc e w q1 cn q2).length) := by
  have key : chanOcc e w q1 cn q2 ++ post =
      (("color.channel").data) ++
        ('(' :: ((e ++ ',' :: (w ++ q1 :: (cn ++ [q2]))) ++ ')' :: post)) := by
    simp [chanOcc]
  have hRp : ∀ c ∈ e ++ ',' :: (w ++ q1 :: (cn ++ [q2])), c ≠ ')' := by
    refine List.forall_mem_append.mpr ⟨hep, ?_⟩
    refine List.forall_mem_cons.mpr ⟨by decide, ?_⟩
    refine List.forall_mem_append.mpr ⟨fun c hc => ws_ne_rpar (hw c hc), ?_⟩
    refine List.forall_mem_cons.mpr ⟨quote_ne_rpar hq1, ?_⟩
    refine List.forall_mem_append.mpr ⟨hcnp, ?_⟩
    refine List.forall_mem_cons.mpr ⟨quote_ne_rpar hq2, ?_⟩
    intro c hc
    exact absurd hc (List.not_mem_nil c)
  have hsplit := splitFirst_append ')' (e ++ ',' :: (w ++ q1 :: (cn ++ [q2]))) post hRp
  have hcf : ∀ c ∈ w ++ q1 :: (cn ++ [q2]), c ≠ ',' := by
    refine List.forall_mem_append.mpr ⟨fun c hc => ws_ne_comma (hw c hc), ?_⟩
    refine List.forall_mem_cons.mpr ⟨quote_ne_comma hq1, ?_⟩
    refine List.forall_mem_append.mpr ⟨hcnc, ?_⟩
    refine List.forall_mem_cons.mpr ⟨quote_ne_comma hq2, ?_⟩
    intro c hc
    exact absurd hc (List.not_mem_nil c)
  have hv := ccViable_occ name w q1 q2 cn hw hq1 hq2 hmap hlow
  have hscan := ccScan_sep name e (w ++ q1 :: (cn ++ [q2])) hcf hv
  have hspan1 : spanWS ('(' :: ((e ++ ',' :: (w ++ q1 :: (cn ++ [q2]))) ++ ')' :: post)) =
      ([], '(' :: ((e ++ ',' :: (w ++ q1 :: (cn ++ [q2]))) ++ ')' :: post)) :=
    spanWS_nonws _ (by decide)
  have hspan2 : spanWS ((e ++ ',' :: (w ++ q1 :: (cn ++ [q2]))) ++ ')' :: post) =
      ([], (e ++ ',' :: (w ++ q1 :: (cn ++ [q2]))) ++ ')' :: post) := by
    cases e with
    | nil => exact absurd rfl he0
    | cons c es =>
      have hc := head_nonws c es he1
      rw [List.cons_append, List.cons_append]
      exact spanWS_nonws _ hc
  have hlen : 13 + ([] : List Char).length + 1 + ([] : List Char).length +
      (e ++ ',' :: (w ++ q1 :: (cn ++ [q2]))).length + 1 =
      (chanOcc e w q1 cn q2).length := by
    simp [chanOcc]
    omega
  rw [key]
  simp only [colorChannelMatch, ciDropLit_self, hspan1, hspan2, hsplit, hscan, hlen,
    if_neg he0]

theorem svgLoadMatch_occ (mdi oct : String) (fetch : String → String)
    (q : Char) (u post : List Char)
    (hq : isQuote q = true) (hu0 : u ≠ []) (huq : ∀ c ∈ u, isQuote c = false) :
    svgLoadMatch mdi oct fetch (svgOcc q u ++ post) =
      some (svgReplacer mdi oct fetch (svgOcc q u) u, (svgOcc q u).length) := by
  have key : svgOcc q u ++ post =
      (("svg-load").data) ++ ('(' :: q :: (u ++ q :: ')' :: post)) := by
    simp [svgOcc]
  have htake := takeWhile_stop (fun c => !(isQuote c)) u q (')' :: post)
    (fun c hc => by simp [huq c hc]) (by simp [hq])
  have hspan1 : spanWS ('(' :: q :: (u ++ q :: ')' :: post)) =
      ([], '(' :: q :: (u ++ q :: ')' :: post)) := spanWS_nonws _ (by decide)
  have hspan2 : spanWS (q :: (u ++ q :: ')' :: post)) =
      ([], q :: (u ++ q :: ')' :: post)) := spanWS_nonws _ (quote_not_ws hq)
  have hspan3 : spanWS (')' :: post) = ([], ')' :: post) := spanWS_nonws _ (by decide)
  have hlen : 8 + ([] : List Char).length + 1 + ([] : List Char).length + 1 +
      u.length + 1 + ([] : List Char).length + 1 = (svgOcc q u).length := by
    simp [svgOcc]
    omega
  have htk : (svgOcc q u ++ post).take (svgOcc q u).length = svgOcc q u :=
    List.take_left _ _
  rw [key] at htk
  rw [key]
  simp only [svgLoadMatch, dropLit_self, hspan1, hspan2, hspan3, hq, if_true,
    htake.1, htake.2, hlen, htk]
  simp [hu0]

theorem fetchAndCache_fresh (ucd : String) (env : FetchEnv) (cache : CacheMap)
    (url body : String)
    (hnc : cache (cachePath ucd url) = none) (hnet : env.net url = some body) :
    fetchAndCache ucd env cache url =
      ⟨b64utf8 body,
        (if env.canWrite (cachePath ucd url) then
          fun k => if k = cachePath ucd url then some (some body) else cache k
        else cache), true⟩ := by
  simp only [fetchAndCache, hnc, fetchFresh, hnet]

theorem fetchAndCache_hit (ucd : String) (env : FetchEnv) (cache : CacheMap)
    (url s : String) (h : cache (cachePath ucd url) = some (some s)) :
    fetchAndCache ucd env cache url =
      ⟨b64utf8 (String.mk (univNL s.data)), cache, false⟩ := by
  simp only [fetchAndCache, h]

set_option maxRecDepth 100000 in
/-- C3: the cache file used by `_fetch_and_cache` lives in the user
cache directory for `mkdxs-mathshim` (modelled by the run-constant
`ucd`) and is named by the SHA-256 hex digest of the UTF-8 bytes of the
URL followed by `.svg`; being a pure function of the URL it is
deterministic, so the same URL always maps to the same cache file.  The
second and third conjuncts pin the embedding down on concrete URLs
whose digests were computed independently: one of length `66` and one
of length `56`, so both classes of SHA-256 padding (message tail at or
past byte 56 of a block, forcing an extra block) are exercised. -/
theorem c3_cache_path_keying (ucd u : String) :
    cachePath ucd u = ucd ++ ("/") ++ sha256hex (utf8Bytes u.data) ++ (".svg") ∧
    cachePath ("cache")
        ("https://raw.githubusercontent.com/primer/octicons/main/icons/x.svg") =
      ("cache/96a078dc1db3aba83902c44fce83efb302b716f3d9de83a81b8bafd820b60191.svg") ∧
    cachePath ("cache")
        ("https://example.com/icons/aaaaaaaaaaaaaaaaaaaaaaaaaa.svg") =
      ("cache/f1054ad510e6f94dc38855b8b0cf06bc5f1d5c965d05bceef211b518397bce2f.svg") := by
  refine ⟨rfl, by decide, by decide⟩

/-- C4: when the cache file for a URL exists but reading it raises,
`_fetch_and_cache` deletes the corrupt file and falls through to the
download; if the download succeeds it returns the base64 of the freshly
fetched body, exactly as it would had the URL never been cached. -/
theorem c4_corrupt_cache_recovery (ucd : String) (env : FetchEnv) (cache : CacheMap)
    (u body : String)
    (hc : cache (cachePath ucd u) = some none)
    (hnet : env.net u = some body) :
    (fetchAndCache ucd env cache u).result = b64utf8 body ∧
    (fetchAndCache ucd env cache u).result =
      (fetchAndCache ucd env
        (fun k => if k = cachePath ucd u then none else cache k) u).result ∧
    (fetchAndCache ucd env cache u).cache (cachePath ucd u) ≠ some none := by
  refine ⟨?_, ?_, ?_⟩
  · simp only [fetchAndCache, hc, fetchFresh, hnet]
  · simp [fetchAndCache, hc, fetchFresh, hnet]
  · simp only [fetchAndCache, hc, fetchFresh, hnet]
    cases hcw : env.canWrite (cachePath ucd u) with
    | true => simp [hcw]
    | false => simp [hcw]

theorem univNL_id (l : List Char) (h : ∀ c ∈ l, c ≠ crc) : univNL l = l := by
  induction l with
  | nil => rfl
  | cons c cs ih =>
    have hc : c ≠ crc := h c (by simp)
    have ih2 := ih (fun d hd => h d (by simp [hd]))
    unfold univNL
    rw [if_neg hc, ih2]

/-- C5 (amended): after a first `_fetch_and_cache` call that downloads
a body containing no carriage-return characters and writes the cache
successfully, a second call on the same URL takes the cache-hit branch:
it makes no network request and returns the same base64 string as the
first call.  The carriage-return restriction is forced by the code: the
cache is written with `Path.write_text` but read back in text mode
under universal newlines, which rewrites `\r\n` and `\r` to `\n`, so
for a body with carriage returns the second call's base64 differs from
the first (see the counterexample). -/
theorem c5_second_call_cache_hit (ucd : String) (env : FetchEnv) (cache : CacheMap)
    (u body : String)
    (h0 : cache (cachePath ucd u) = none)
    (hnet : env.net u = some body)
    (hw : env.canWrite (cachePath ucd u) = true)
    (hcr : ∀ c ∈ body.data, c ≠ crc) :
    (fetchAndCache ucd env cache u).fetched = true ∧
    (fetchAndCache ucd env (fetchAndCache ucd env cache u).cache u).fetched = false ∧
    (fetchAndCache ucd env (fetchAndCache ucd env cache u).cache u).result =
      (fetchAndCache ucd env cache u).result := by
  have h1 := fetchAndCache_fresh ucd env cache u body h0 hnet
  rw [h1, hw]
  simp only [if_true]
  have h2 : (fun k => if k = cachePath ucd u then some (some body) else cache k)
      (cachePath ucd u) = some (some body) := by simp
  have h3 := fetchAndCache_hit ucd env
    (fun k => if k = cachePath ucd u then some (some body) else cache k) u body h2
  rw [h3]
  simp [univNL_id body.data hcr]

set_option maxRecDepth 1000000 in
/-- C5 counterexample: the original claim fails for a body containing a
carriage return.  With the body `<svg>\r\n</svg>` the first call
returns the base64 of the verbatim body (`PHN2Zz4NCjwvc3ZnPg==`), the
second call takes the cache-hit branch but reads the cached text under
universal newlines (`\r\n` becomes `\n`) and returns
`PHN2Zz4KPC9zdmc+` — a different base64 string. -/
theorem c5_counterexample :
    (fetchAndCache ("c")
        ⟨fun v => if v = ("http://e/i.svg") then
            some (String.mk ((("<svg>").data) ++ [crc, nlc] ++ (("</svg>").data)))
          else none, fun _ => true⟩
        (fun _ => none) ("http://e/i.svg")).result = ("PHN2Zz4NCjwvc3ZnPg==") ∧
    (fetchAndCache ("c")
        ⟨fun v => if v = ("http://e/i.svg") then
            some (String.mk ((("<svg>").data) ++ [crc, nlc] ++ (("</svg>").data)))
          else none, fun _ => true⟩
        (fetchAndCache ("c")
          ⟨fun v => if v = ("http://e/i.svg") then
              some (String.mk ((("<svg>").data) ++ [crc, nlc] ++ (("</svg>").data)))
            else none, fun _ => true⟩
          (fun _ => none) ("http://e/i.svg")).cache ("http://e/i.svg")).fetched = false ∧
    (fetchAndCache ("c")
        ⟨fun v => if v = ("http://e/i.svg") then
            some (String.mk ((("<svg>").data) ++ [crc, nlc] ++ (("</svg>").data)))
          else none, fun _ => true⟩
        (fetchAndCache ("c")
          ⟨fun v => if v = ("http://e/i.svg") then
              some (String.mk ((("<svg>").data) ++ [crc, nlc] ++ (("</svg>").data)))
            else none, fun _ => true⟩
          (fun _ => none) ("http://e/i.svg")).cache ("http://e/i.svg")).result =
      ("PHN2Zz4KPC9zdmc+") ∧
    (fetchAndCache ("c")
        ⟨fun v => if v = ("http://e/i.svg") then
            some (String.mk ((("<svg>").data) ++ [crc, nlc] ++ (("</svg>").data)))
          else none, fun _ => true⟩
        (fetchAndCache ("c")
          ⟨fun v => if v = ("http://e/i.svg") then
              some (String.mk ((("<svg>").data) ++ [crc, nlc] ++ (("</svg>").data)))
            else none, fun _ => true⟩
          (fun _ => none) ("http://e/i.svg")).cache ("http://e/i.svg")).result ≠
      (fetchAndCache ("c")
        ⟨fun v => if v = ("http://e/i.svg") then
            some (String.mk ((("<svg>").data) ++ [crc, nlc] ++ (("</svg>").data)))
          else none, fun _ => true⟩
        (fun _ => none) ("http://e/i.svg")).result := by
  refine ⟨by decide, by decide, by decide, by decide⟩

theorem c4_witness :
    (fetchAndCache ("c")
        ⟨fun v => if v = ("http://e/i.svg") then some ("<svg/>") else none, fun _ => true⟩
        (fun _ => some none) ("http://e/i.svg")).result = b64utf8 ("<svg/>") :=
  (c4_corrupt_cache_recovery ("c")
    ⟨fun v => if v = ("http://e/i.svg") then some ("<svg/>") else none, fun _ => true⟩
    (fun _ => some none) ("http://e/i.svg") ("<svg/>") rfl (by simp)).1

theorem c5_witness :
    (fetchAndCache ("c")
        ⟨fun v => if v = ("http://e/i.svg") then some ("<svg/>") else none, fun _ => true⟩
        (fun _ => none) ("http://e/i.svg")).fetched = true ∧
    (fetchAndCache ("c")
        ⟨fun v => if v = ("http://e/i.svg") then some ("<svg/>") else none, fun _ => true⟩
        (fetchAndCache ("c")
          ⟨fun v => if v = ("http://e/i.svg") then some ("<svg/>") else none, fun _ => true⟩
          (fun _ => none) ("http://e/i.svg")).cache ("http://e/i.svg")).fetched = false :=
  have h := c5_second_call_cache_hit ("c")
    ⟨fun v => if v = ("http://e/i.svg") then some ("<svg/>") else none, fun _ => true⟩
    (fun _ => none) ("http://e/i.svg") ("<svg/>") rfl (by simp) rfl (by decide)
  ⟨h.1, h.2.1⟩

/-- C6: in the shim of `save_to`, every occurrence of `math.div(a, b)`
whose argument text `a` contains no comma and whose `b` contains no
closing parenthesis is rewritten to the parenthesised division
`(a / b)` with the whitespace around `a` and `b` stripped; every
literal occurrence of `math.round(` becomes `round(`; and
`math.unit(x)` with `x` free of closing parentheses becomes `unit(x)`.
Each conjunct replaces one occurrence (the leftmost, given that no
match starts earlier) and the scan continues on the rest of the text,
exactly as `re.sub` does. -/
theorem c6_math_call_rewrites :
    (∀ pre post : List Char,
      NoMatchBelow mathRoundMatch (pre ++ (("math.round(").data) ++ post) pre.length →
      subst mathRoundMatch (pre ++ (("math.round(").data) ++ post) =
        pre ++ (("round(").data) ++ subst mathRoundMatch post) ∧
    (∀ pre w1 a w2 w3 b w4 post : List Char,
      (∀ c ∈ w1, isWS c = true) → (∀ c ∈ w2, isWS c = true) →
      (∀ c ∈ w3, isWS c = true) → (∀ c ∈ w4, isWS c = true) →
      a ≠ [] → (∀ c ∈ a, c ≠ ',') → a.dropWhile isWS = a → dropEndWS a = a →
      b ≠ [] → (∀ c ∈ b, c ≠ ')') → b.dropWhile isWS = b → dropEndWS b = b →
      NoMatchBelow mathDivMatch (pre ++ divOcc w1 a w2 w3 b w4 ++ post) pre.length →
      subst mathDivMatch (pre ++ divOcc w1 a w2 w3 b w4 ++ post) =
        pre ++ (('(' :: a) ++ (' ' :: '/' :: ' ' :: b) ++ [')']) ++
          subst mathDivMatch post) ∧
    (∀ pre w1 x w2 post : List Char,
      (∀ c ∈ w1, isWS c = true) → (∀ c ∈ w2, isWS c = true) →
      x ≠ [] → (∀ c ∈ x, c ≠ ')') → x.dropWhile isWS = x → dropEndWS x = x →
      NoMatchBelow mathUnitMatch (pre ++ unitOcc w1 x w2 ++ post) pre.length →
      subst mathUnitMatch (pre ++ unitOcc w1 x w2 ++ post) =
        pre ++ ((("unit(").data) ++ x ++ [')']) ++ subst mathUnitMatch post) := by
  refine ⟨?_, ?_, ?_⟩
  · intro pre post hpre
    exact subst_skip_eat mathRoundMatch pre (("math.round(").data) post (("round(").data)
      (by decide) (mathRoundMatch_occ post) hpre
  · intro pre w1 a w2 w3 b w4 post hw1 hw2 hw3 hw4 ha0 hac ha1 ha2 hb0 hbp hb1 hb2 hpre
    have hocc : divOcc w1 a w2 w3 b w4 ≠ [] := by
      intro h
      have := congrArg List.length h
      simp [divOcc] at this
    exact subst_skip_eat mathDivMatch pre (divOcc w1 a w2 w3 b w4) post _
      hocc (mathDivMatch_occ w1 a w2 w3 b w4 post hw1 hw2 hw3 hw4 ha0 hac ha1 ha2
        hb0 hbp hb1 hb2) hpre
  · intro pre w1 x w2 post hw1 hw2 hx0 hxp hx1 hx2 hpre
    have hocc : unitOcc w1 x w2 ≠ [] := by
      intro h
      have := congrArg List.length h
      simp [unitOcc] at this
    exact subst_skip_eat mathUnitMatch pre (unitOcc w1 x w2) post _
      hocc (mathUnitMatch_occ w1 x w2 post hw1 hw2 hx0 hxp hx1 hx2) hpre

theorem c6_witness :
    subst mathRoundMatch ((("x ").data) ++ (("math.round(").data) ++ (("1.5)").data)) =
      (("x ").data) ++ (("round(").data) ++ subst mathRoundMatch ((("1.5)").data)) ∧
    subst mathDivMatch
        ((("y: ").data) ++ divOcc [' '] (("$a").data) [] [] (("2").data) [' '] ++ ((";").data)) =
      (("y: ").data) ++ (('(' :: (("$a").data)) ++ (' ' :: '/' :: ' ' :: (("2").data)) ++ [')']) ++
        subst mathDivMatch (((";").data)) ∧
    subst mathUnitMatch
        ((("z ").data) ++ unitOcc [] (("3px").data) [' '] ++ (("!").data)) =
      (("z ").data) ++ ((("unit(").data) ++ (("3px").data) ++ [')']) ++
        subst mathUnitMatch ((("!").data)) :=
  ⟨c6_math_call_rewrites.1 (("x ").data) (("1.5)").data) (by decide),
   c6_math_call_rewrites.2.1 (("y: ").data) [' '] (("$a").data) [] [] (("2").data) [' ']
     ((";").data) (by decide) (by decide) (by decide) (by decide) (by decide) (by decide)
     (by decide) (by decide) (by decide) (by decide) (by decide) (by decide) (by decide),
   c6_math_call_rewrites.2.2 (("z ").data) [] (("3px").data) [' '] (("!").data)
     (by decide) (by decide) (by decide) (by decide) (by decide) (by decide) (by decide)⟩

theorem cn_avoid (name cn : List Char) (hmap : cn.map Char.toLower = name)
    (t : Char) (ht : t.toLower = t) (hnn : t ∉ name) : ∀ c ∈ cn, c ≠ t := by
  intro c hc heq
  have h1 : c.toLower ∈ cn.map Char.toLower := List.mem_map_of_mem Char.toLower hc
  rw [hmap, heq, ht] at h1
  exact hnn h1

theorem colorChannel_rewrite (name repHead : List Char)
    (hlow : ∀ c ∈ name, c.toLower = c) (hpn : ')' ∉ name) (hcn : ',' ∉ name)
    (pre e w : List Char) (q1 : Char) (cn : List Char) (q2 : Char) (post : List Char)
    (hq1 : isQuote q1 = true) (hq2 : isQuote q2 = true)
    (hmap : cn.map Char.toLower = name)
    (hw : ∀ c ∈ w, isWS c = true)
    (he0 : e ≠ []) (hep : ∀ c ∈ e, c ≠ ')') (he1 : e.dropWhile isWS = e)
    (hpre : NoMatchBelow (colorChannelMatch name repHead)
      (pre ++ chanOcc e w q1 cn q2 ++ post) pre.length) :
    subst (colorChannelMatch name repHead) (pre ++ chanOcc e w q1 cn q2 ++ post) =
      pre ++ (repHead ++ e ++ [')']) ++ subst (colorChannelMatch name repHead) post := by
  have hcnp : ∀ c ∈ cn, c ≠ ')' := cn_avoid name cn hmap ')' (by decide) hpn
  have hcnc : ∀ c ∈ cn, c ≠ ',' := cn_avoid name cn hmap ',' (by decide) hcn
  have hocc : chanOcc e w q1 cn q2 ≠ [] := by
    intro h
    have := congrArg List.length h
    simp [chanOcc] at this
  exact subst_skip_eat (colorChannelMatch name repHead) pre (chanOcc e w q1 cn q2) post _
    hocc (colorChannelMatch_occ name repHead e w q1 cn q2 post hq1 hq2 hmap hlow hw
      he0 hep he1 hcnp hcnc) hpre

/-- C7: in the shim of `save_to`, every occurrence of
`color.channel(expr,<ws><q>name<q>)` with `name` a case variant of
`hue`, `saturation` or `lightness`, the quotes single or double (and
independent), and `expr` a non-empty expression text free of closing
parentheses that starts with a non-whitespace character, is rewritten
to `hue(expr)`, `saturation(expr)`, or `lightness(expr)` respectively;
the scan then continues after the occurrence. -/
theorem c7_color_channel_rewrites :
    (∀ (pre e w : List Char) (q1 : Char) (cn : List Char) (q2 : Char) (post : List Char),
      isQuote q1 = true → isQuote q2 = true →
      cn.map Char.toLower = (("hue").data) →
      (∀ c ∈ w, isWS c = true) →
      e ≠ [] → (∀ c ∈ e, c ≠ ')') → e.dropWhile isWS = e →
      NoMatchBelow (colorChannelMatch (("hue").data) (("hue(").data))
        (pre ++ chanOcc e w q1 cn q2 ++ post) pre.length →
      subst (colorChannelMatch (("hue").data) (("hue(").data))
          (pre ++ chanOcc e w q1 cn q2 ++ post) =
        pre ++ ((("hue(").data) ++ e ++ [')']) ++
          subst (colorChannelMatch (("hue").data) (("hue(").data)) post) ∧
    (∀ (pre e w : List Char) (q1 : Char) (cn : List Char) (q2 : Char) (post : List Char),
      isQuote q1 = true → isQuote q2 = true →
      cn.map Char.toLower = (("saturation").data) →
      (∀ c ∈ w, isWS c = true) →
      e ≠ [] → (∀ c ∈ e, c ≠ ')') → e.dropWhile isWS = e →
      NoMatchBelow (colorChannelMatch (("saturation").data) (("saturation(").data))
        (pre ++ chanOcc e w q1 cn q2 ++ post) pre.length →
      subst (colorChannelMatch (("saturation").data) (("saturation(").data))
          (pre ++ chanOcc e w q1 cn q2 ++ post) =
        pre ++ ((("saturation(").data) ++ e ++ [')']) ++
          subst (colorChannelMatch (("saturation").data) (("saturation(").data)) post) ∧
    (∀ (pre e w : List Char) (q1 : Char) (cn : List Char) (q2 : Char) (post : List Char),
      isQuote q1 = true → isQuote q2 = true →
      cn.map Char.toLower = (("lightness").data) →
      (∀ c ∈ w, isWS c = true) →
      e ≠ [] → (∀ c ∈ e, c ≠ ')') → e.dropWhile isWS = e →
      NoMatchBelow (colorChannelMatch (("lightness").data) (("lightness(").data))
        (pre ++ chanOcc e w q1 cn q2 ++ post) pre.length →
      subst (colorChannelMatch (("lightness").data) (("lightness(").data))
          (pre ++ chanOcc e w q1 cn q2 ++ post) =
        pre ++ ((("lightness(").data) ++ e ++ [')']) ++
          subst (colorChannelMatch (("lightness").data) (("lightness(").data)) post) := by
  refine ⟨?_, ?_, ?_⟩ <;>
    intro pre e w q1 cn q2 post hq1 hq2 hmap hw he0 hep he1 hpre <;>
    exact colorChannel_rewrite _ _ (by decide) (by decide) (by decide)
      pre e w q1 cn q2 post hq1 hq2 hmap hw he0 hep he1 hpre

theorem c7_witness :
    subst (colorChannelMatch (("hue").data) (("hue(").data))
        (((".x-h: ").data) ++ chanOcc (("$c").data) [' '] sqc (("HUE").data) sqc ++ ((";-").data)) =
      ((".x-h: ").data) ++ ((("hue(").data) ++ (("$c").data) ++ [')']) ++
        subst (colorChannelMatch (("hue").data) (("hue(").data)) (((";-").data)) ∧
    subst (colorChannelMatch (("saturation").data) (("saturation(").data))
        ((("s: ").data) ++ chanOcc (("$c").data) [' '] '"' (("saturation").data) '"' ++ ((";").data)) =
      (("s: ").data) ++ ((("saturation(").data) ++ (("$c").data) ++ [')']) ++
        subst (colorChannelMatch (("saturation").data) (("saturation(").data)) (((";").data)) ∧
    subst (colorChannelMatch (("lightness").data) (("lightness(").data))
        ((("l: ").data) ++ chanOcc (("$c").data) [' '] sqc (("Lightness").data) '"' ++ ((";").data)) =
      (("l: ").data) ++ ((("lightness(").data) ++ (("$c").data) ++ [')']) ++
        subst (colorChannelMatch (("lightness").data) (("lightness(").data)) (((";").data)) :=
  ⟨c7_color_channel_rewrites.1 ((".x-h: ").data) (("$c").data) [' '] sqc (("HUE").data) sqc
      ((";-").data) (by decide) (by decide) (by decide) (by decide) (by decide) (by decide)
      (by decide) (by decide),
   c7_color_channel_rewrites.2.1 (("s: ").data) (("$c").data) [' '] '"' (("saturation").data) '"'
      ((";").data) (by decide) (by decide) (by decide) (by decide) (by decide) (by decide)
      (by decide) (by decide),
   c7_color_channel_rewrites.2.2 (("l: ").data) (("$c").data) [' '] sqc (("Lightness").data) '"'
      ((";").data) (by decide) (by decide) (by decide) (by decide) (by decide) (by decide)
      (by decide) (by decide)⟩

/-- C8: the `math.div` rewrite is not correct on nested call syntax: on
`math.div(rgb(1,2,3), 2)` — whose first argument itself contains a
comma inside inner parentheses — the first comma and the first closing
parenthesis are taken as delimiters, producing `(rgb(1 / 2,3), 2)`
rather than the parenthesised division `(rgb(1,2,3) / 2)` of the two
argument texts. -/
theorem c8_nested_div_best_effort :
    mathDivSub ("math.div(rgb(1,2,3), 2)") = ("(rgb(1 / 2,3), 2)") ∧
    mathDivSub ("math.div(rgb(1,2,3), 2)") ≠ ("(rgb(1,2,3) / 2)") := by
  constructor
  · decide
  · decide

/-- C9: `search_entry_point` checks `style.css.sass`, `style.sass`,
`style.css.scss`, `style.scss` in that fixed order inside `extra_sass`
and returns an available entry for the first that is a regular file; if
`extra_sass` is not a directory or none of the four files exists it
returns an entry with `is_available` `False` and `relative_path` `""`. -/
theorem c9_search_entry_point (isdir isfile : String → Bool) :
    (isdir stylesDir = true → isfile (pathJoin stylesDir ("style.css.sass")) = true →
      searchEntryPoint isdir isfile = SassEntry.avail stylesDir ("style.css.sass") ∧
      isAvailable (searchEntryPoint isdir isfile) = true) ∧
    (isdir stylesDir = true → isfile (pathJoin stylesDir ("style.css.sass")) = false →
      isfile (pathJoin stylesDir ("style.sass")) = true →
      searchEntryPoint isdir isfile = SassEntry.avail stylesDir ("style.sass") ∧
      isAvailable (searchEntryPoint isdir isfile) = true) ∧
    (isdir stylesDir = true → isfile (pathJoin stylesDir ("style.css.sass")) = false →
      isfile (pathJoin stylesDir ("style.sass")) = false →
      isfile (pathJoin stylesDir ("style.css.scss")) = true →
      searchEntryPoint isdir isfile = SassEntry.avail stylesDir ("style.css.scss") ∧
      isAvailable (searchEntryPoint isdir isfile) = true) ∧
    (isdir stylesDir = true → isfile (pathJoin stylesDir ("style.css.sass")) = false →
      isfile (pathJoin stylesDir ("style.sass")) = false →
      isfile (pathJoin stylesDir ("style.css.scss")) = false →
      isfile (pathJoin stylesDir ("style.scss")) = true →
      searchEntryPoint isdir isfile = SassEntry.avail stylesDir ("style.scss") ∧
      isAvailable (searchEntryPoint isdir isfile) = true) ∧
    (isdir stylesDir = true → isfile (pathJoin stylesDir ("style.css.sass")) = false →
      isfile (pathJoin stylesDir ("style.sass")) = false →
      isfile (pathJoin stylesDir ("style.css.scss")) = false →
      isfile (pathJoin stylesDir ("style.scss")) = false →
      searchEntryPoint isdir isfile = SassEntry.noSass ∧
      isAvailable (searchEntryPoint isdir isfile) = false ∧
      relativePath (searchEntryPoint isdir isfile) = "") ∧
    (isdir stylesDir = false →
      searchEntryPoint isdir isfile = SassEntry.noSass ∧
      isAvailable (searchEntryPoint isdir isfile) = false ∧
      relativePath (searchEntryPoint isdir isfile) = "") := by
  refine ⟨?_, ?_, ?_, ?_, ?_, ?_⟩
  · intro hd h1
    simp [searchEntryPoint, styleFilenames, List.find?, hd, h1, isAvailable]
  · intro hd h1 h2
    simp [searchEntryPoint, styleFilenames, List.find?, hd, h1, h2, isAvailable]
  · intro hd h1 h2 h3
    simp [searchEntryPoint, styleFilenames, List.find?, hd, h1, h2, h3, isAvailable]
  · intro hd h1 h2 h3 h4
    simp [searchEntryPoint, styleFilenames, List.find?, hd, h1, h2, h3, h4, isAvailable]
  · intro hd h1 h2 h3 h4
    simp [searchEntryPoint, styleFilenames, List.find?, hd, h1, h2, h3, h4,
      isAvailable, relativePath]
  · intro hd
    simp [searchEntryPoint, hd, isAvailable, relativePath]

theorem c9_witness :
    searchEntryPoint (fun d => d = ("extra_sass")) (fun f => f = ("extra_sass/style.sass")) =
      SassEntry.avail stylesDir ("style.sass") ∧
    searchEntryPoint (fun _ => false) (fun _ => true) = SassEntry.noSass ∧
    relativePath (searchEntryPoint (fun _ => false) (fun _ => true)) = "" :=
  have h1 := (c9_search_entry_point (fun d => d = ("extra_sass"))
    (fun f => f = ("extra_sass/style.sass"))).2.1 (by decide) (by decide) (by decide)
  have h2 := (c9_search_entry_point (fun _ => false) (fun _ => true)).2.2.2.2.2 (by decide)
  ⟨h1.1, h2.1, h2.2.2⟩

theorem takeWhile_break (pr : Char → Bool) (y : Char) (hy : pr y = false) :
    ∀ xs ys : List Char, (xs ++ y :: ys).takeWhile pr = xs.takeWhile pr := by
  intro xs ys
  induction xs with
  | nil => simp [List.takeWhile, hy]
  | cons c cs ih =>
    cases hc : pr c with
    | true => simp [List.takeWhile_cons, hc, ih]
    | false => simp [List.takeWhile_cons, hc]

theorem basenameL_drop_dir (d f : List Char) :
    basenameL (d ++ '/' :: f) = basenameL f := by
  unfold basenameL
  have h1 : (d ++ '/' :: f).reverse = f.reverse ++ '/' :: d.reverse := by
    simp [List.reverse_append]
  rw [h1, takeWhile_break (fun c => c != '/') '/' (by decide) f.reverse d.reverse]

/-- C10: in the `replacer` of `_inline_svg_loads`, a matched path that
is not an `http(s)` URL and does not start with `@mdi/svg/svg/` is,
whenever the octicons base URL is non-empty and the (stripped) path
contains the substring `octicons` anywhere, fetched from
`octicons_base_url + "/" + basename(path)` — so the directory
components of the path are discarded and do not influence the remote
URL, as the second conjunct states for `basename` itself. -/
theorem c10_octicons_basename (mdi oct : String) (fetch : String → String)
    (fullText g : List Char)
    (hh1 : startsWithL (("http://").data) (stripWS g) = false)
    (hh2 : startsWithL (("https://").data) (stripWS g) = false)
    (hmdi : startsWithL (("@mdi/svg/svg/").data) (stripWS g) = false)
    (hoct : oct ≠ "")
    (hsub : hasSub (("octicons").data) (stripWS g) = true) :
    svgReplacer mdi oct fetch fullText g =
      (if fetch (oct ++ ("/") ++ String.mk (basenameL (stripWS g))) = "" then
        (("/* ").data) ++ fullText ++ ((" => Octicons fetch failed: ").data) ++
          (oct ++ ("/") ++ String.mk (basenameL (stripWS g))).data ++ ((" */").data)
      else inlinedRep fullText
        (fetch (oct ++ ("/") ++ String.mk (basenameL (stripWS g))))) ∧
    (∀ d f : List Char, basenameL (d ++ '/' :: f) = basenameL f) := by
  constructor
  · have hoct2 : (oct != "") = true := bne_iff_ne.mpr hoct
    simp only [svgReplacer, hh1, hh2, hmdi, hoct2, hsub, Bool.or_self, Bool.false_or,
      Bool.and_false, Bool.false_and, Bool.true_and, Bool.and_self, if_false,
      Bool.false_eq_true, ite_false, ite_true]
  · exact basenameL_drop_dir

/-- C1 (amended): for an occurrence `svg-load(<q>U<q>)` where `U` is
non-empty, contains no quote characters, has no leading or trailing
whitespace (the code fetches `U.strip()`, so the claim as stated fails
when `U` has surrounding whitespace — see the counterexample), and
starts with `http://` or `https://`: if downloading `U` yields a body
whose base64 `b = b64utf8 body` is non-empty (which is what
`_fetch_and_cache` returns on a fresh fetch), `_inline_svg_loads`
replaces the occurrence with
`/* svg-load(<q>U<q>) => inlined */ url('data:image/svg+xml;base64,b')`
and continues scanning the rest of the text. -/
theorem c1_svg_load_inline (ucd mdi oct : String) (env : FetchEnv) (cache : CacheMap)
    (pre post u : List Char) (q : Char) (body : String)
    (hq : isQuote q = true)
    (hu0 : u ≠ []) (huq : ∀ c ∈ u, isQuote c = false)
    (hu1 : u.dropWhile isWS = u) (hu2 : dropEndWS u = u)
    (hhttp : startsWithL (("http://").data) u = true ∨
      startsWithL (("https://").data) u = true)
    (hnet : env.net (String.mk u) = some body)
    (hnc : cache (cachePath ucd (String.mk u)) = none)
    (hb : b64utf8 body ≠ "")
    (hpre : NoMatchBelow
      (svgLoadMatch mdi oct (fun v => (fetchAndCache ucd env cache v).result))
      (pre ++ svgOcc q u ++ post) pre.length) :
    subst (svgLoadMatch mdi oct (fun v => (fetchAndCache ucd env cache v).result))
        (pre ++ svgOcc q u ++ post) =
      pre ++ inlinedRep (svgOcc q u) (b64utf8 body) ++
        subst (svgLoadMatch mdi oct (fun v => (fetchAndCache ucd env cache v).result))
          post := by
  have hstrip : stripWS u = u := by unfold stripWS; rw [hu1, hu2]
  have hocc : svgOcc q u ≠ [] := by
    intro h
    have := congrArg List.length h
    simp [svgOcc] at this
  have hfetch : (fetchAndCache ucd env cache (String.mk u)).result = b64utf8 body := by
    rw [fetchAndCache_fresh ucd env cache (String.mk u) body hnc hnet]
  have hrep : svgReplacer mdi oct (fun v => (fetchAndCache ucd env cache v).result)
      (svgOcc q u) u = inlinedRep (svgOcc q u) (b64utf8 body) := by
    rcases hhttp with h | h <;> simp [svgReplacer, hstrip, h, hfetch, hb]
  have hm := svgLoadMatch_occ mdi oct (fun v => (fetchAndCache ucd env cache v).result)
    q u post hq hu0 huq
  rw [hrep] at hm
  exact subst_skip_eat _ pre (svgOcc q u) post _ hocc hm hpre

/-- C1 counterexample: the claim as frozen omits that the code strips
the quoted path before fetching.  `U = "http://x "` (trailing blank) is
non-empty, quote-free and starts with `http://`, and the fetch function
returns the non-empty base64 `QQ==` for `U` itself — yet the code
fetches `U.strip() = "http://x"`, gets `""`, and emits the FAILED
comment instead of the inlined data URI the claim promises. -/
theorem c1_counterexample :
    cexFetch ("http://x ") = ("QQ==") ∧
    inlineSvgLoads ("") ("") cexFetch
        (("svg-load(") ++ String.mk ['"'] ++ ("http://x ") ++ String.mk ['"', ')']) =
      ("/* svg-load(") ++ String.mk ['"'] ++ ("http://x ") ++ String.mk ['"'] ++
        (") => FAILED to fetch */") ∧
    inlineSvgLoads ("") ("") cexFetch
        (("svg-load(") ++ String.mk ['"'] ++ ("http://x ") ++ String.mk ['"', ')']) ≠
      ("/* svg-load(") ++ String.mk ['"'] ++ ("http://x ") ++ String.mk ['"'] ++
        (") => inlined */ url(") ++ String.mk [sqc] ++
        ("data:image/svg+xml;base64,") ++ cexFetch ("http://x ") ++
        String.mk [sqc, ')'] := by
  refine ⟨by decide, by decide, by decide⟩

theorem c1_witness :
    subst (svgLoadMatch ("") ("") (fun v => (fetchAndCache ("c")
        ⟨fun w => if w = ("http://i/a.svg") then some ("<svg/>") else none, fun _ => true⟩
        (fun _ => none) v).result))
        ((("x: ").data) ++ svgOcc '"' (("http://i/a.svg").data) ++ ((";").data)) =
      (("x: ").data) ++
        inlinedRep (svgOcc '"' (("http://i/a.svg").data)) (b64utf8 ("<svg/>")) ++
        subst (svgLoadMatch ("") ("") (fun v => (fetchAndCache ("c")
          ⟨fun w => if w = ("http://i/a.svg") then some ("<svg/>") else none, fun _ => true⟩
          (fun _ => none) v).result)) (((";").data)) :=
  c1_svg_load_inline ("c") ("") ("")
    ⟨fun w => if w = ("http://i/a.svg") then some ("<svg/>") else none, fun _ => true⟩
    (fun _ => none) (("x: ").data) ((";").data) (("http://i/a.svg").data) '"' ("<svg/>")
    (by decide) (by decide) (by decide) (by decide) (by decide)
    (Or.inl (by decide)) (by decide) rfl (by decide) (by decide)

/-- C2: when the download for a matched `svg-load` URL raises and there
is no readable cache, `_fetch_and_cache` swallows the exception and
returns `""` (first conjunct), and `_inline_svg_loads` — a total
function here, so no exception escapes — replaces the occurrence with
the CSS comment `/* <original svg-load text> => FAILED to fetch */`
while the rest of the stylesheet is still produced (second conjunct,
with the scan continuing over `post`). -/
theorem c2_svg_load_fetch_failure (ucd mdi oct : String) (env : FetchEnv)
    (cache : CacheMap) (pre post u : List Char) (q : Char)
    (hq : isQuote q = true)
    (hu0 : u ≠ []) (huq : ∀ c ∈ u, isQuote c = false)
    (hu1 : u.dropWhile isWS = u) (hu2 : dropEndWS u = u)
    (hhttp : startsWithL (("http://").data) u = true ∨
      startsWithL (("https://").data) u = true)
    (hnet : env.net (String.mk u) = none)
    (hnc : cache (cachePath ucd (String.mk u)) = none ∨
      cache (cachePath ucd (String.mk u)) = some none)
    (hpre : NoMatchBelow
      (svgLoadMatch mdi oct (fun v => (fetchAndCache ucd env cache v).result))
      (pre ++ svgOcc q u ++ post) pre.length) :
    (fetchAndCache ucd env cache (String.mk u)).result = "" ∧
    subst (svgLoadMatch mdi oct (fun v => (fetchAndCache ucd env cache v).result))
        (pre ++ svgOcc q u ++ post) =
      pre ++ ((("/* ").data) ++ svgOcc q u ++ ((" => FAILED to fetch */").data)) ++
        subst (svgLoadMatch mdi oct (fun v => (fetchAndCache ucd env cache v).result))
          post := by
  have hstrip : stripWS u = u := by unfold stripWS; rw [hu1, hu2]
  have hocc : svgOcc q u ≠ [] := by
    intro h
    have := congrArg List.length h
    simp [svgOcc] at this
  have hfail : (fetchAndCache ucd env cache (String.mk u)).result = "" := by
    rcases hnc with h | h <;> simp [fetchAndCache, h, fetchFresh, hnet]
  refine ⟨hfail, ?_⟩
  have hrep : svgReplacer mdi oct (fun v => (fetchAndCache ucd env cache v).result)
      (svgOcc q u) u =
      (("/* ").data) ++ svgOcc q u ++ ((" => FAILED to fetch */").data) := by
    rcases hhttp with h | h <;> simp [svgReplacer, hstrip, h, hfail]
  have hm := svgLoadMatch_occ mdi oct (fun v => (fetchAndCache ucd env cache v).result)
    q u post hq hu0 huq
  rw [hrep] at hm
  exact subst_skip_eat _ pre (svgOcc q u) post _ hocc hm hpre

theorem c2_witness :
    (fetchAndCache ("c") ⟨fun _ => none, fun _ => true⟩ (fun _ => none)
      (String.mk (("http://i/a.svg").data))).result = "" ∧
    subst (svgLoadMatch ("") ("") (fun v => (fetchAndCache ("c")
        ⟨fun _ => none, fun _ => true⟩ (fun _ => none) v).result))
        ((("x: ").data) ++ svgOcc sqc (("http://i/a.svg").data) ++ ((";").data)) =
      (("x: ").data) ++
        ((("/* ").data) ++ svgOcc sqc (("http://i/a.svg").data) ++
          ((" => FAILED to fetch */").data)) ++
        subst (svgLoadMatch ("") ("") (fun v => (fetchAndCache ("c")
          ⟨fun _ => none, fun _ => true⟩ (fun _ => none) v).result)) (((";").data)) :=
  c2_svg_load_fetch_failure ("c") ("") ("") ⟨fun _ => none, fun _ => true⟩ (fun _ => none)
    (("x: ").data) ((";").data) (("http://i/a.svg").data) sqc
    (by decide) (by decide) (by decide) (by decide) (by decide)
    (Or.inl (by decide)) rfl (Or.inl rfl) (by decide)

theorem c10_witness :
    svgReplacer ("m") ("o") (fun _ => "") (("t").data) (("dir/sub/my-octicons-x.svg").data) =
      (("/* ").data) ++ (("t").data) ++ ((" => Octicons fetch failed: ").data) ++
        (("o/my-octicons-x.svg").data) ++ ((" */").data) := by
  have h := (c10_octicons_basename ("m") ("o") (fun _ => "") (("t").data)
    (("dir/sub/my-octicons-x.svg").data) (by decide) (by decide) (by decide)
    (by decide) (by decide)).1
  rw [h]
  decide
